import Mathlib

/-!
Verification of the entity-management pagination and message-settlement
subsystem of the Service Bus client layer.

The pagination side is embedded from `serviceBusAtomManagementClient.ts`
(`src/unnamed/part_001`): `listQueues`/`listResources` request forming,
`buildListQueuesResponse`, `getMarkerFromNextLinkUrl`,
`throwIfInvalidContinuationToken`, and the `listQueuesPage` /
`listQueuesAll` / `getQueues().byPage` iteration loops.

JavaScript numeric string conversion (`Number(...)`, used by the token
validator and by `listQueuesPage`) is modelled by `jsNumber` below;
`jsParseInt` models `parseInt(...)` and is used only to state claims that
are phrased in terms of `parseInt`. Exact values are carried as explicit
numerator/denominator pairs (`JsRat`), so every definition evaluates by
kernel reduction; floating-point rounding is irrelevant to the claims.

The settlement side (complete/abandon/defer/deadLetter/renewLock on a
received message) has no implementation under `src/`; it is modelled from
the spec, with its behavior pinned by the repository test file
`src/sdk/servicebus/service-bus/test/backupMessageSettlement.spec.ts`.
-/

deriving instance DecidableEq for Except

namespace SBus

/-- Numeric value of a digit or letter character in a given base, as used by
numeric string grammars: `0`-`9`, `a`-`f`, `A`-`F`; `none` when the
character is not a digit of the base. -/
def valInBase (b : ℕ) (c : Char) : Option ℕ :=
  let v : Option ℕ :=
    if c.isDigit then some (c.toNat - 48)
    else if 'a' ≤ c ∧ c ≤ 'f' then some (c.toNat - 87)
    else if 'A' ≤ c ∧ c ≤ 'F' then some (c.toNat - 55)
    else none
  match v with
  | some n => if n < b then some n else none
  | none => none

/-- Parse a non-empty run of base-`b` digits covering the whole list;
`none` when empty or when any character is invalid (JS semantics for the
digits of `0x...` literals and of exponents). -/
def parseNatBase (b : ℕ) (cs : List Char) : Option ℕ :=
  if cs = [] then none
  else cs.foldl (fun acc c => acc.bind fun a => (valInBase b c).map fun d => a * b + d) (some 0)

/-- Decimal value of a digit-character list, most significant first
(the characters are assumed to be decimal digits). -/
def natOfDigits (cs : List Char) : ℕ :=
  cs.foldl (fun a c => a * 10 + (c.toNat - 48)) 0

/-- Whitespace as trimmed by JS `Number(...)` (the whitespace classes
relevant to this development). -/
def isWsChar (c : Char) : Bool :=
  decide (c = ' ') || decide (c = '\t') || decide (c = '\n') || decide (c = '\r')

/-- Trim whitespace from both ends of a character list (the string-trim
step of JS `Number(...)`). -/
def trimChars (cs : List Char) : List Char :=
  ((cs.dropWhile isWsChar).reverse.dropWhile isWsChar).reverse

/-- An exact rational carried as an explicit (not normalized) fraction;
every denominator constructed below is a positive power of ten. -/
structure JsRat where
  num : ℤ
  den : ℕ
deriving DecidableEq

/-- The rational carried by a pair (used only in specification statements,
never on an evaluation path). -/
def JsRat.val (r : JsRat) : ℚ := (r.num : ℚ) / (r.den : ℚ)

/-- Embed an integer. -/
def JsRat.ofInt (n : ℤ) : JsRat := ⟨n, 1⟩

/-- Negate. -/
def JsRat.neg (r : JsRat) : JsRat := ⟨-r.num, r.den⟩

/-- A JavaScript number as far as this subsystem observes it: NaN, a signed
infinity, or a finite exact value. -/
inductive JsNum where
  | nan : JsNum
  | inf (neg : Bool) : JsNum
  | fin (r : JsRat) : JsNum
deriving DecidableEq

/-- JS `x >= 0` on a number: false for NaN, true for `Infinity`; for a
finite value the sign of the numerator (denominators are positive). -/
def JsNum.nonneg : JsNum → Bool
  | .nan => false
  | .inf neg => !neg
  | .fin r => decide (0 ≤ r.num)

/-- JS truthiness of a number: NaN and 0 are falsy. -/
def JsNum.truthy : JsNum → Bool
  | .nan => false
  | .inf _ => true
  | .fin r => decide (r.num ≠ 0)

/-- Apply a decimal exponent to a mantissa. -/
def applyExp (m : JsRat) (e : ℤ) : JsRat :=
  match e with
  | .ofNat n => ⟨m.num * (10 ^ n : ℕ), m.den⟩
  | .negSucc n => ⟨m.num, m.den * 10 ^ (n + 1)⟩

/-- Mantissa value of integer-part and fraction-part digit lists:
`ip.fp = (ip * 10^|fp| + fp) / 10^|fp|`. -/
def mantissa (ip fp : List Char) : JsRat :=
  ⟨(natOfDigits ip * 10 ^ fp.length + natOfDigits fp : ℕ), 10 ^ fp.length⟩

/-- Exponent part after the `e`/`E`: optional sign then mandatory digits. -/
def parseExpPart (cs : List Char) : Option ℤ :=
  match cs with
  | [] => none
  | c :: r =>
    if c = '+' then (parseNatBase 10 r).map fun n => (n : ℤ)
    else if c = '-' then (parseNatBase 10 r).map fun n => -(n : ℤ)
    else (parseNatBase 10 cs).map fun n => (n : ℤ)

/-- Optional exponent suffix: empty means no exponent; otherwise `e`/`E`
followed by a well-formed exponent, anything else fails. -/
def withExpPart (m : JsRat) (r : List Char) : Option JsRat :=
  match r with
  | [] => some m
  | c :: rest =>
    if c = 'e' ∨ c = 'E' then (parseExpPart rest).map fun e => applyExp m e
    else none

/-- JS decimal literal: digits, optional `.` with digits, optional
exponent; the whole list must be consumed; at least one digit must be
present around the dot. -/
def parseDecimal (cs : List Char) : Option JsRat :=
  match cs.dropWhile Char.isDigit with
  | '.' :: r =>
    if (cs.takeWhile Char.isDigit).isEmpty && (r.takeWhile Char.isDigit).isEmpty then none
    else
      withExpPart (mantissa (cs.takeWhile Char.isDigit) (r.takeWhile Char.isDigit))
        (r.dropWhile Char.isDigit)
  | r2 =>
    if (cs.takeWhile Char.isDigit).isEmpty then none
    else withExpPart (mantissa (cs.takeWhile Char.isDigit) []) r2

/-- Lift an optional natural (radix-literal value) to a JS number. -/
def jsNatResult : Option ℕ → JsNum
  | some n => .fin (JsRat.ofInt n)
  | none => .nan

/-- Recognize a `0x`/`0o`/`0b` radix literal head, returning the base and
the remaining digit characters. -/
def radixDigits (cs : List Char) : Option (ℕ × List Char) :=
  match cs with
  | c0 :: c1 :: r =>
    if c0 = '0' then
      if c1 = 'x' ∨ c1 = 'X' then some (16, r)
      else if c1 = 'o' ∨ c1 = 'O' then some (8, r)
      else if c1 = 'b' ∨ c1 = 'B' then some (2, r)
      else none
    else none
  | _ => none

/-- Signed decimal or `Infinity` (radix literals take no sign in JS). -/
def decOrInf (cs : List Char) (neg : Bool) : JsNum :=
  if cs = "Infinity".toList then .inf neg
  else
    match parseDecimal cs with
    | some r => .fin (if neg then r.neg else r)
    | none => .nan

/-- Strip an optional leading sign and parse the rest as decimal or
`Infinity`. -/
def signedDec (cs : List Char) : JsNum :=
  match cs with
  | [] => decOrInf [] false
  | c :: r =>
    if c = '+' then decOrInf r false
    else if c = '-' then decOrInf r true
    else decOrInf cs false

/-- A trimmed, non-empty numeric string body: radix literal or signed
decimal/Infinity. -/
def jsNumeric (cs : List Char) : JsNum :=
  match radixDigits cs with
  | some (b, r) => jsNatResult (parseNatBase b r)
  | none => signedDec cs

/-- JS `Number(s)` for a string `s`: trim; empty is 0; otherwise the
numeric-literal grammar, `NaN` when it does not match. -/
def jsNumber (s : String) : JsNum :=
  match trimChars s.toList with
  | [] => .fin (JsRat.ofInt 0)
  | cs => jsNumeric cs

/-- JS `Number(x)` where `x` is an optional string (`Number(undefined)` is
NaN). -/
def jsNumberOpt : Option String → JsNum
  | none => .nan
  | some s => jsNumber s

/-- Definition following the spec words only (not the source): JS
`parseInt(s)` with no radix argument — trim, optional sign, optional
`0x`/`0X` prefix, then the longest leading digit run; NaN (`none`) when
there is no digit. Used to compare the spec formula
`skip = parseInt(marker ?? "0")` with what the code sends. -/
def jsParseInt (s : String) : Option ℤ :=
  let body : List Char → Option ℕ := fun cs =>
    match cs with
    | '0' :: c :: r =>
      if c = 'x' ∨ c = 'X' then
        let ds := r.takeWhile fun a => (valInBase 16 a).isSome
        if ds = [] then none else parseNatBase 16 ds
      else
        let ds := cs.takeWhile fun a => (valInBase 10 a).isSome
        if ds = [] then none else parseNatBase 10 ds
    | _ =>
      let ds := cs.takeWhile fun a => (valInBase 10 a).isSome
      if ds = [] then none else parseNatBase 10 ds
  match trimChars s.toList with
  | '+' :: r => (body r).map fun n => (n : ℤ)
  | '-' :: r => (body r).map fun n => -(n : ℤ)
  | cs => (body cs).map fun n => (n : ℤ)

/-- Definition following the spec words only (not the source): a
"non-negative integer string" — a non-empty string of decimal digits.
Used to compare the claimed rejection set of the token validation with
the one the code implements. -/
def isNonNegIntString (s : String) : Bool :=
  decide (s.toList ≠ []) && s.toList.all Char.isDigit

/-- JS truthiness of an optional string (`undefined` and `""` are falsy):
the loop guard `while (marker)` of `listQueuesPage`. -/
def jsTruthyOptStr : Option String → Bool
  | none => false
  | some s => !(decide (s.toList = []))

/-- Embedded from `throwIfInvalidContinuationToken` (part_001:2905-2909):
accept `undefined` or a string whose JS numeric conversion satisfies
`>= 0`; otherwise throw `Invalid continuationToken ${token} provided`. -/
def throwIfInvalidContinuationToken (token : Option String) : Except String Unit :=
  match token with
  | none => .ok ()
  | some t =>
    if (jsNumber t).nonneg then .ok ()
    else .error ("Invalid continuationToken " ++ t ++ " provided")

/-- The single list request issued by `listResources` (part_001:2409-2441):
`$skip` carries `Number(marker)` and is omitted when that value is falsy
(`if (options.skip)`), `$top` carries `maxCount = options.maxPageSize` and
is omitted when falsy (`if (options.maxCount)`). The request is modelled by
the values of its two query parameters. -/
structure ListRequest where
  skip : Option JsNum
  top : Option ℕ
deriving DecidableEq

/-- The `$skip` parameter produced for a marker: `skip: Number(marker)`
in `listQueuesPage`, omitted by `listResources` when falsy. -/
def requestSkip (marker : Option String) : Option JsNum :=
  let n := jsNumberOpt marker
  if n.truthy then some n else none

/-- The `$top` parameter produced for a `maxPageSize` hint, omitted when
falsy. -/
def requestTop : Option ℕ → Option ℕ
  | none => none
  | some n => if n = 0 then none else some n

/-- The full request for one iteration of `listQueuesPage`. -/
def mkListRequest (marker : Option String) (maxPageSize : Option ℕ) : ListRequest :=
  ⟨requestSkip marker, requestTop maxPageSize⟩

/-- Check whether a list of characters starts with the given head
characters. -/
def leadMatches : List Char → List Char → Bool
  | [], _ => true
  | _ :: _, [] => false
  | a :: as, b :: bs => (decide (a = b)) && leadMatches as bs

/-- Everything after the first occurrence of `c` (empty when `c` does not
occur): used for the query part of a URL and for the value part of a
`key=value` pair. -/
def afterFirst (c : Char) (cs : List Char) : List Char :=
  (cs.dropWhile fun a => !(decide (a = c))).drop 1

/-- Split on a separator character (WHATWG query-pair splitting). -/
def splitChars (c : Char) : List Char → List (List Char)
  | [] => [[]]
  | a :: rest =>
    if a = c then [] :: splitChars c rest
    else
      match splitChars c rest with
      | h :: t => (a :: h) :: t
      | [] => [[a]]

/-- `parseURL(url).searchParams.get(key)`: first `key=value` query pair of
the URL, keys compared literally (the `$skip` key used here needs no
percent-decoding). -/
def getSearchParam (url : String) (key : String) : Option String :=
  let query := afterFirst '?' url.toList
  let pairs := splitChars '&' query
  (pairs.filterMap fun p =>
    if p.takeWhile (fun a => !(decide (a = '='))) = key.toList then
      some (String.mk (afterFirst '=' p))
    else none).head?

/-- `Constants.XML_METADATA_MARKER`. -/
def xmlMetadataMarker : String := "$"

/-- Embedded from `getMarkerFromNextLinkUrl` (part_001:2494-2506): falsy
URL gives no marker; an unparseable URL (no HTTP scheme, the failure mode
of `parseURL`) throws; otherwise the value of the `$skip` query
parameter (possibly absent). -/
def getMarkerFromNextLinkUrl (url : Option String) : Except String (Option String) :=
  match url with
  | none => .ok none
  | some u =>
    if u.toList = [] then .ok none
    else if leadMatches "https://".toList u.toList || leadMatches "http://".toList u.toList then
      .ok (getSearchParam u (xmlMetadataMarker ++ "skip"))
    else .error "Unable to parse the skip marker from the next-link in the response"

/-- `EntitiesResponse<T>`: the items of one page plus its continuation
token (the raw transport response is not modelled). -/
structure EntitiesResponse (β : Type) where
  items : List β
  continuationToken : Option String
deriving DecidableEq

/-- The parsed body of a list response as the client observes it: either a
raw-record array (with a possible `nextLink` property attached), or a
value that is not an array. -/
inductive JsParsedBody (α : Type) where
  | arr (records : List α) (nextLink : Option String) : JsParsedBody α
  | nonArray (nextLink : Option String) : JsParsedBody α
deriving DecidableEq

/-- The `RestError` surfaced by response building: message and code. -/
structure RestErrorModel where
  message : String
  code : String
deriving DecidableEq

/-- The one `RestError` that `buildListQueuesResponse`'s catch block
produces (`RestError.PARSE_ERROR`). -/
def parseRestError : RestErrorModel :=
  ⟨"Error occurred while parsing the response body - cannot form a list of queues using the response from the service.", "PARSE_ERROR"⟩

/-- Embedded from `buildListQueuesResponse` (part_001:2529-2560),
parameterized by the per-entity decoder (`buildQueue`, an external
collaborator returning `undefined` to skip a record): extract the marker
from `parsedBody.nextLink`, require the body to be an array, collect the
records on which the decoder succeeds; every throw inside the `try` is
caught and surfaced as the single parse `RestError`. -/
def buildListQueuesResponse {α β : Type} (decode : α → Option β) (body : JsParsedBody α) :
    Except RestErrorModel (EntitiesResponse β) :=
  match body with
  | .arr records nextLink =>
    match getMarkerFromNextLinkUrl nextLink with
    | .error _ => .error parseRestError
    | .ok marker => .ok ⟨records.filterMap decode, marker⟩
  | .nonArray _ => .error parseRestError

/-- Errors escaping a page-iteration run: a parse error thrown by response
building, or exhaustion of the step budget (the real generator would keep
looping; a proved `.ok` result shows the loop terminated by itself). -/
inductive PageError where
  | parseError (e : RestErrorModel) : PageError
  | outOfFuel : PageError
deriving DecidableEq

/-- Embedded from the async generator `listQueuesPage` (part_001:505-519):
a do/while loop that requests a page at `skip = Number(marker)`, yields
it, advances the marker to the returned continuation token and continues
while that token is truthy. The run returns the yielded pages together
with the trace of list requests issued. -/
def listQueuesPageRun {α β : Type} (server : ListRequest → JsParsedBody α)
    (decode : α → Option β) (maxPageSize : Option ℕ) :
    Option String → ℕ → Except PageError (List (EntitiesResponse β)) × List ListRequest
  | _, 0 => (.error .outOfFuel, [])
  | marker, fuel + 1 =>
    let req := mkListRequest marker maxPageSize
    match buildListQueuesResponse decode (server req) with
    | .error e => (.error (.parseError e), [req])
    | .ok page =>
      if jsTruthyOptStr page.continuationToken then
        let r := listQueuesPageRun server decode maxPageSize page.continuationToken fuel
        (r.1.map fun rest => page :: rest, req :: r.2)
      else
        (.ok [page], [req])

/-- Embedded from `listQueuesAll` (part_001:521-528): drive
`listQueuesPage` from an undefined marker and flatten the pages' items. -/
def listQueuesAllRun {α β : Type} (server : ListRequest → JsParsedBody α)
    (decode : α → Option β) (fuel : ℕ) :
    Except PageError (List β) × List ListRequest :=
  let r := listQueuesPageRun server decode none none fuel
  (r.1.map fun pages => (pages.map EntitiesResponse.items).flatten, r.2)

/-- Errors escaping a `byPage` call: the synchronously thrown
invalid-continuation-token error, or an error of the page loop. -/
inductive ByPageError where
  | invalidToken (msg : String) : ByPageError
  | page (e : PageError) : ByPageError
deriving DecidableEq

/-- Embedded from `getQueues().byPage` (part_001:563-569): validate the
caller-supplied continuation token synchronously, then run the page loop
from it; an invalid token produces the error before any request is
issued (the returned request trace is empty). -/
def getQueuesByPage {α β : Type} (server : ListRequest → JsParsedBody α)
    (decode : α → Option β) (continuationToken : Option String) (maxPageSize : Option ℕ)
    (fuel : ℕ) : Except ByPageError (List (EntitiesResponse β)) × List ListRequest :=
  match throwIfInvalidContinuationToken continuationToken with
  | .error m => (.error (.invalidToken m), [])
  | .ok _ =>
    let r := listQueuesPageRun server decode maxPageSize continuationToken fuel
    (r.1.mapError ByPageError.page, r.2)

/-- Little-endian decimal digits of a natural number, with a structural
fuel argument so that it evaluates by kernel reduction. -/
def natDigitsAux : ℕ → ℕ → List ℕ
  | 0, _ => []
  | _ + 1, 0 => []
  | fuel + 1, n + 1 => ((n + 1) % 10) :: natDigitsAux fuel ((n + 1) / 10)

/-- Little-endian decimal digits of `n` (`n` itself is enough fuel). -/
def natDigits (n : ℕ) : List ℕ := natDigitsAux n n

/-- The character of a decimal digit. -/
def digitChar (d : ℕ) : Char := Char.ofNat (48 + d)

/-- Decimal rendering of a natural number (most significant digit first;
empty for 0, which never occurs in a rendered marker). -/
def natStr (n : ℕ) : String := String.mk ((natDigits n).reverse.map digitChar)

/-- Base of the next-link URLs produced by the canonical server model. -/
def nextLinkBase : String :=
  "https://contoso.servicebus.windows.net/$Resources/Queues?$skip="

/-- The effective offset a well-behaved server reads from the `$skip`
parameter: absent means 0; a finite value is floored to a natural. -/
def effSkip (total : ℕ) (sk : Option JsNum) : ℕ :=
  match sk with
  | none => 0
  | some .nan => 0
  | some (.inf neg) => if neg then 0 else total
  | some (.fin r) => r.num.toNat / r.den

/-- The canonical well-behaved remote collection of the spec's testable
properties: `N` records (numbered in order) served with page size `P`;
the response carries a next-link URL with the next skip offset exactly
when records remain. -/
def canonicalServer (N P : ℕ) (req : ListRequest) : JsParsedBody ℕ :=
  let s := effSkip N req.skip
  JsParsedBody.arr (((List.range N).drop s).take P)
    (if s + P < N then some (nextLinkBase ++ natStr (s + P)) else none)

/-- The marker from which an iteration of the canonical scan at offset `s`
starts: the fresh scan starts at `undefined`, later iterations at the
rendered offset. -/
def canonMarker (s : ℕ) : Option String :=
  if s = 0 then none else some (natStr s)

/-- The pages of the canonical scan from offset `s` (what the loop is
proved to yield). -/
def canonPages (N P : ℕ) : ℕ → ℕ → List (EntitiesResponse ℕ)
  | _, 0 => []
  | s, fuel + 1 =>
    let page : EntitiesResponse ℕ :=
      ⟨((List.range N).drop s).take P,
        if s + P < N then some (natStr (s + P)) else none⟩
    if s + P < N then page :: canonPages N P (s + P) fuel else [page]

/-- The requests of the canonical scan from offset `s`. -/
def canonReq (s : ℕ) : ListRequest :=
  ⟨if s = 0 then none else some (.fin ⟨(s : ℤ), 1⟩), none⟩

/-- The request trace of the canonical scan from offset `s`. -/
def canonReqs (N P : ℕ) : ℕ → ℕ → List ListRequest
  | _, 0 => []
  | s, fuel + 1 =>
    if s + P < N then canonReq s :: canonReqs N P (s + P) fuel else [canonReq s]

/-- Number of page fetches the do/while loop performs for a collection of
`n` items at page size `p`: at least one fetch always happens. -/
def fetchCount (n p : ℕ) : ℕ :=
  if n = 0 then 1 else (n + p - 1) / p

/-- The marker-monotonicity relation between two consecutively yielded
pages: whenever both carry continuation tokens, the tokens convert to
natural numbers (hence non-negative integers) in strictly increasing
order. -/
def tokensStrictlyIncrease {β : Type} (p q : EntitiesResponse β) : Prop :=
  ∀ a b, p.continuationToken = some a → q.continuationToken = some b →
    ∃ na nb : ℕ, jsNumber a = JsNum.fin ⟨(na : ℤ), 1⟩ ∧
      jsNumber b = JsNum.fin ⟨(nb : ℤ), 1⟩ ∧ na < nb

/-- The disposition verbs of the settlement subsystem
(`DispositionType` of `serviceBusMessage.ts`; the test file drives all
four through `msg.complete()` / `abandon()` / `defer()` / `deadLetter()`
and formats errors with the enum values below). -/
inductive DispositionType where
  | complete : DispositionType
  | abandon : DispositionType
  | defer : DispositionType
  | deadletter : DispositionType
deriving DecidableEq

/-- The string value of a disposition verb as interpolated into the
link-severed error message (the test asserts
`Failed to ${DispositionType.deadletter} ...`, i.e. `deadletter`). -/
def DispositionType.verb : DispositionType → String
  | .complete => "complete"
  | .abandon => "abandon"
  | .defer => "defer"
  | .deadletter => "deadletter"

/-- Error kinds a disposition outcome can carry (spec §6). -/
inductive SettleErrorKind where
  | linkSevered : SettleErrorKind
  | lockLost : SettleErrorKind
  | alreadySettled : SettleErrorKind
  | transport : SettleErrorKind
  | sessionLockUnavailable : SettleErrorKind
deriving DecidableEq

/-- A rejected disposition outcome: kind plus message. -/
structure SettleError where
  kind : SettleErrorKind
  message : String
deriving DecidableEq

/-- The deterministic message of a link-severed settlement failure, with
the verb name embedded (asserted verbatim by the test file). -/
def linkSeveredMessage (d : DispositionType) : String :=
  "Failed to " ++ d.verb ++
    " the message as the AMQP link with which the message was received is no longer alive."

/-- A received message as the settlement guard observes it: whether the
entity uses sessions, whether the bound receive link is open at
disposition time (the liveness oracle), and whether the message has
already been settled. -/
structure ReceivedMessageModel where
  usesSessions : Bool
  linkOpen : Bool
  settled : Bool
deriving DecidableEq

/-- Modelled from the spec: the settlement guard and state machine of
spec §4.2 for the four disposition verbs (the implementation,
`serviceBusMessage.ts`, is not under `src/`; its observable behavior here
is also pinned by `backupMessageSettlement.spec.ts`). At disposition
time: if the bound link is closed and the entity uses sessions, fail
synchronously with the link-severed error naming the verb; otherwise
forward the disposition (against a freshly supplied link when the
original is closed), where re-settling an already settled message is
rejected with the already-settled kind and a fresh message settles
successfully. -/
def settleMessage (m : ReceivedMessageModel) (d : DispositionType) :
    Except SettleError ReceivedMessageModel :=
  if !m.linkOpen && m.usesSessions then
    .error ⟨.linkSevered, linkSeveredMessage d⟩
  else if m.settled then
    .error ⟨.alreadySettled, "The message has been already settled."⟩
  else
    .ok { m with settled := true }

/-- Modelled from the spec: `renewLock()` on a received message (the
implementation is not under `src/`). The behavior is pinned by
`testRenewLock` of `backupMessageSettlement.spec.ts` (lines 289-323),
which runs after the receiver is closed: for a session-bound message the
call rejects (message locks do not exist for sessions); for a non-session
message the renewal succeeds through the backup management link even
though the receive link is closed. -/
def renewLockMessage (m : ReceivedMessageModel) : Except SettleError ReceivedMessageModel :=
  if m.usesSessions then
    .error ⟨.sessionLockUnavailable,
      "Invalid operation on the message, message lock does not exist when dealing with sessions"⟩
  else
    .ok m

/-- Embedded from `backupMessageSettlement.spec.ts`: every scenario of the
test closes the receiver, invokes one of the five verbs on the previously
received message, and asserts `errorWasThrown` equal to
`entityNames.usesSessions` — for sessions every verb must reject, without
sessions none may. -/
def backupSettlementTestExpectsError (usesSessions : Bool) : Bool := usesSessions

/-- Claim C1: for every session-bound received message whose receive link
is closed at disposition time, each of complete, abandon, defer and
deadLetter rejects with an error whose message is exactly
`Failed to <verb> the message as the AMQP link with which the message was
received is no longer alive.` with the verb naming the invoked
disposition, and renewLock on the same message also rejects. -/
theorem claim_C1_session_settlement_severed_link (m : ReceivedMessageModel)
    (hs : m.usesSessions = true) (hl : m.linkOpen = false) :
    settleMessage m .complete = .error ⟨.linkSevered,
      "Failed to complete the message as the AMQP link with which the message was received is no longer alive."⟩ ∧
    settleMessage m .abandon = .error ⟨.linkSevered,
      "Failed to abandon the message as the AMQP link with which the message was received is no longer alive."⟩ ∧
    settleMessage m .defer = .error ⟨.linkSevered,
      "Failed to defer the message as the AMQP link with which the message was received is no longer alive."⟩ ∧
    settleMessage m .deadletter = .error ⟨.linkSevered,
      "Failed to deadletter the message as the AMQP link with which the message was received is no longer alive."⟩ ∧
    (renewLockMessage m).isOk = false := by
  simp [settleMessage, renewLockMessage, hs, hl, linkSeveredMessage, DispositionType.verb,
    Except.isOk, Except.toBool]

/-- Witness for C1 at the concrete session message with a closed link. -/
theorem claim_C1_session_settlement_severed_link_witness :
    (⟨true, false, false⟩ : ReceivedMessageModel).usesSessions = true ∧
    (⟨true, false, false⟩ : ReceivedMessageModel).linkOpen = false ∧
    (settleMessage ⟨true, false, false⟩ .complete = .error ⟨.linkSevered,
      "Failed to complete the message as the AMQP link with which the message was received is no longer alive."⟩ ∧
    settleMessage ⟨true, false, false⟩ .abandon = .error ⟨.linkSevered,
      "Failed to abandon the message as the AMQP link with which the message was received is no longer alive."⟩ ∧
    settleMessage ⟨true, false, false⟩ .defer = .error ⟨.linkSevered,
      "Failed to defer the message as the AMQP link with which the message was received is no longer alive."⟩ ∧
    settleMessage ⟨true, false, false⟩ .deadletter = .error ⟨.linkSevered,
      "Failed to deadletter the message as the AMQP link with which the message was received is no longer alive."⟩ ∧
    (renewLockMessage ⟨true, false, false⟩).isOk = false) :=
  ⟨rfl, rfl, claim_C1_session_settlement_severed_link ⟨true, false, false⟩ rfl rfl⟩

/-- Claim C2 counterexample: the claim says renewLock on a non-session
message with a closed link rejects with a LinkSevered error; on the
modelled behavior, pinned by `testRenewLock` of the repository test file
(which asserts that no error is thrown in exactly this scenario), the
call succeeds, so the claim is false at this concrete message. -/
theorem claim_C2_counterexample :
    renewLockMessage ⟨false, false, false⟩ = .ok ⟨false, false, false⟩ ∧
    (renewLockMessage ⟨false, false, false⟩).isOk = true ∧
    backupSettlementTestExpectsError false = false := by
  decide

/-- Claim C2 (amended): for a non-session received message whose original
receive link is closed, complete, abandon, defer and deadLetter succeed
when dispatched against a freshly supplied link (no LinkSevered), and
renewLock also succeeds (through the backup management link) rather than
rejecting. -/
theorem claim_C2_nonsession_settlement_amended (m : ReceivedMessageModel)
    (hs : m.usesSessions = false) (hl : m.linkOpen = false)
    (hset : m.settled = false) :
    (∀ d : DispositionType, settleMessage m d = .ok { m with settled := true }) ∧
    renewLockMessage m = .ok m := by
  refine ⟨fun d => ?_, ?_⟩ <;> simp [settleMessage, renewLockMessage, hs, hl, hset]

/-- Witness for the amended C2 at the concrete non-session message with a
closed link. -/
theorem claim_C2_nonsession_settlement_amended_witness :
    (⟨false, false, false⟩ : ReceivedMessageModel).usesSessions = false ∧
    (⟨false, false, false⟩ : ReceivedMessageModel).linkOpen = false ∧
    (⟨false, false, false⟩ : ReceivedMessageModel).settled = false ∧
    ((∀ d : DispositionType,
        settleMessage ⟨false, false, false⟩ d = .ok ⟨false, false, true⟩) ∧
      renewLockMessage ⟨false, false, false⟩ = .ok ⟨false, false, false⟩) :=
  ⟨rfl, rfl, rfl, claim_C2_nonsession_settlement_amended ⟨false, false, false⟩ rfl rfl rfl⟩

/-- Claim C9: on a message that can settle at all (not a severed
session-bound message), complete succeeds the first time and the second
complete — indeed any re-settlement — rejects with the AlreadySettled
error kind. -/
theorem claim_C9_idempotent_settlement (m : ReceivedMessageModel)
    (hset : m.settled = false) (hok : m.linkOpen = true ∨ m.usesSessions = false) :
    settleMessage m .complete = .ok { m with settled := true } ∧
    ∀ d : DispositionType,
      settleMessage { m with settled := true } d =
        .error ⟨.alreadySettled, "The message has been already settled."⟩ := by
  have hguard : (!m.linkOpen && m.usesSessions) = false := by
    rcases hok with h | h <;> simp [h]
  exact ⟨by simp [settleMessage, hguard, hset], fun d => by simp [settleMessage, hguard]⟩

/-- Witness for C9 at a concrete open-link message. -/
theorem claim_C9_idempotent_settlement_witness :
    (⟨false, true, false⟩ : ReceivedMessageModel).settled = false ∧
    ((⟨false, true, false⟩ : ReceivedMessageModel).linkOpen = true ∨
      (⟨false, true, false⟩ : ReceivedMessageModel).usesSessions = false) ∧
    (settleMessage ⟨false, true, false⟩ .complete = .ok ⟨false, true, true⟩ ∧
      ∀ d : DispositionType,
        settleMessage ⟨false, true, true⟩ d =
          .error ⟨.alreadySettled, "The message has been already settled."⟩) :=
  ⟨rfl, Or.inl rfl, claim_C9_idempotent_settlement ⟨false, true, false⟩ rfl (Or.inl rfl)⟩


/-- Claim C10: the continuation-token validation accepts exactly the
tokens that are undefined or whose JS numeric conversion is `>= 0`; in
particular the empty string (Number 0), the decimal `1.5`, the exponent
form `1e3` and the hex form `0x1F` are all accepted (shown with their
converted values), while `-1` and `abc` are rejected. -/
theorem claim_C10_token_validation_characterization :
    (∀ t : Option String, throwIfInvalidContinuationToken t = .ok () ↔
        (t = none ∨ ∃ s, t = some s ∧ (jsNumber s).nonneg = true)) ∧
    throwIfInvalidContinuationToken (some "") = .ok () ∧ jsNumber "" = .fin ⟨0, 1⟩ ∧
    throwIfInvalidContinuationToken (some "1.5") = .ok () ∧ jsNumber "1.5" = .fin ⟨15, 10⟩ ∧
    throwIfInvalidContinuationToken (some "1e3") = .ok () ∧ jsNumber "1e3" = .fin ⟨1000, 1⟩ ∧
    throwIfInvalidContinuationToken (some "0x1F") = .ok () ∧ jsNumber "0x1F" = .fin ⟨31, 1⟩ ∧
    throwIfInvalidContinuationToken (some "-1") = .error "Invalid continuationToken -1 provided" ∧
    throwIfInvalidContinuationToken (some "abc") = .error "Invalid continuationToken abc provided" := by
  refine ⟨fun t => ?_, by decide, by decide, by decide, by decide, by decide, by decide,
    by decide, by decide, by decide, by decide⟩
  cases t with
  | none => simp [throwIfInvalidContinuationToken]
  | some s =>
    by_cases h : (jsNumber s).nonneg <;> simp [throwIfInvalidContinuationToken, h]

/-- Claim C6 counterexample: the token `1e3` passes validation and may
also arrive from a next-link; for it the request is issued with
`$skip = Number("1e3") = 1000`, whereas the spec formula
`parseInt(marker ?? "0")` gives 1. -/
theorem claim_C6_counterexample :
    (mkListRequest (some "1e3") none).skip = some (.fin ⟨1000, 1⟩) ∧
    jsParseInt "1e3" = some 1 ∧
    throwIfInvalidContinuationToken (some "1e3") = .ok () ∧
    (1000 : ℤ) ≠ 1 := by
  decide

/-- Claim C6 (amended): the single list request carries
`$skip = Number(marker)`, the parameter being omitted exactly when that
value is falsy (NaN or 0), and `$top = maxCount = pageSizeHint`, omitted
when absent or 0; in particular an absent marker and the marker `0` both
produce a request without `$skip`, i.e. one reading the collection from
offset 0. -/
theorem claim_C6_request_forming_amended :
    (∀ (marker : Option String) (mps : Option ℕ),
        mkListRequest marker mps =
          ⟨if (jsNumberOpt marker).truthy then some (jsNumberOpt marker) else none,
            match mps with | none => none | some n => if n = 0 then none else some n⟩) ∧
    (∀ mps, (mkListRequest none mps).skip = none ∧ (mkListRequest (some "0") mps).skip = none) ∧
    (∀ total mps, effSkip total (mkListRequest none mps).skip = 0 ∧
        effSkip total (mkListRequest (some "0") mps).skip = 0) ∧
    (∀ marker, (mkListRequest marker (some 10)).top = some 10) ∧
    (∀ s, jsNumber s = .nan → ∀ mps, (mkListRequest (some s) mps).skip = none) := by
  have h0 : requestSkip (some "0") = none := by decide
  refine ⟨fun marker mps => rfl, fun mps => ⟨rfl, by simp [mkListRequest, h0]⟩,
    fun total mps => ⟨rfl, by simp [mkListRequest, h0, effSkip]⟩,
    fun marker => rfl, fun s h mps => ?_⟩
  simp [mkListRequest, requestSkip, jsNumberOpt, h, JsNum.truthy]

theorem digitChar_isDigit {d : ℕ} (h : d < 10) : (digitChar d).isDigit = true := by
  interval_cases d <;> decide

theorem digitChar_toNat {d : ℕ} (h : d < 10) : (digitChar d).toNat - 48 = d := by
  interval_cases d <;> decide

theorem digit_ne {c a : Char} (hc : c.isDigit = true) (ha : a.isDigit = false) : c ≠ a := by
  intro h
  subst h
  rw [hc] at ha
  cases ha

theorem natDigitsAux_eq_digits : ∀ fuel n : ℕ, n ≤ fuel → natDigitsAux fuel n = Nat.digits 10 n := by
  intro fuel
  induction fuel with
  | zero =>
    intro n hn
    interval_cases n
    rw [show natDigitsAux 0 0 = [] from rfl, Nat.digits_zero]
  | succ f ih =>
    intro n hn
    match n with
    | 0 => rw [show natDigitsAux (f + 1) 0 = [] from rfl, Nat.digits_zero]
    | k + 1 =>
      rw [show natDigitsAux (f + 1) (k + 1) = ((k + 1) % 10) :: natDigitsAux f ((k + 1) / 10)
          from rfl]
      rw [ih ((k + 1) / 10) (by have := Nat.div_lt_self (Nat.succ_pos k) (by norm_num : 1 < 10); omega)]
      rw [Nat.digits_def' (by norm_num : 1 < 10) (Nat.succ_pos k)]

theorem natDigits_eq (n : ℕ) : natDigits n = Nat.digits 10 n :=
  natDigitsAux_eq_digits n n le_rfl

theorem natDigits_lt (n : ℕ) : ∀ d ∈ natDigits n, d < 10 := by
  rw [natDigits_eq]
  intro d hd
  exact Nat.digits_lt_base (by norm_num) hd

theorem natDigits_ne_nil {n : ℕ} (h : 1 ≤ n) : natDigits n ≠ [] := by
  rw [natDigits_eq]
  exact Nat.digits_ne_nil_iff_ne_zero.mpr (by omega)

theorem valLE_eq_ofDigits (L : List ℕ) :
    L.foldr (fun d a => d + 10 * a) 0 = Nat.ofDigits 10 L := by
  induction L with
  | nil => rfl
  | cons d t ih => simp [Nat.ofDigits_cons, ih]

theorem natOfDigits_append_one (A : List Char) (c : Char) :
    natOfDigits (A ++ [c]) = natOfDigits A * 10 + (c.toNat - 48) := by
  simp [natOfDigits, List.foldl_append]

theorem natOfDigits_rev_map (L : List ℕ) (h : ∀ d ∈ L, d < 10) :
    natOfDigits (L.reverse.map digitChar) = L.foldr (fun d a => d + 10 * a) 0 := by
  induction L with
  | nil => rfl
  | cons d t ih =>
    have hd : d < 10 := h d (by simp)
    have ht : ∀ x ∈ t, x < 10 := fun x hx => h x (by simp [hx])
    simp only [List.reverse_cons, List.map_append, List.map_cons, List.map_nil, List.foldr_cons]
    rw [natOfDigits_append_one, ih ht, digitChar_toNat hd]
    omega

theorem natOfDigits_natStr (n : ℕ) : natOfDigits ((natDigits n).reverse.map digitChar) = n := by
  rw [natOfDigits_rev_map _ (natDigits_lt n), valLE_eq_ofDigits, natDigits_eq,
    Nat.ofDigits_digits]

theorem natStr_toList (n : ℕ) : (natStr n).toList = (natDigits n).reverse.map digitChar := rfl

theorem natStr_chars_digit (n : ℕ) : ∀ c ∈ (natStr n).toList, c.isDigit = true := by
  rw [natStr_toList]
  intro c hc
  rcases List.mem_map.mp hc with ⟨d, hd, rfl⟩
  exact digitChar_isDigit (natDigits_lt n d (List.mem_reverse.mp hd))

theorem natStr_toList_ne_nil {n : ℕ} (h : 1 ≤ n) : (natStr n).toList ≠ [] := by
  rw [natStr_toList]
  simp [natDigits_ne_nil h]

theorem dropWhile_of_forall_neg {p : Char → Bool} {cs : List Char}
    (h : ∀ c ∈ cs, p c = false) : cs.dropWhile p = cs := by
  cases cs with
  | nil => rfl
  | cons a t => simp [List.dropWhile_cons, h a (by simp)]

theorem takeWhile_of_forall {p : Char → Bool} {cs : List Char}
    (h : ∀ c ∈ cs, p c = true) : cs.takeWhile p = cs := by
  induction cs with
  | nil => rfl
  | cons a t ih => simp [List.takeWhile_cons, h a (by simp), ih fun c hc => h c (by simp [hc])]

theorem dropWhile_of_forall {p : Char → Bool} {cs : List Char}
    (h : ∀ c ∈ cs, p c = true) : cs.dropWhile p = [] := by
  induction cs with
  | nil => rfl
  | cons a t ih => simp [List.dropWhile_cons, h a (by simp), ih fun c hc => h c (by simp [hc])]

theorem digit_not_ws {c : Char} (hc : c.isDigit = true) : isWsChar c = false := by
  simp only [isWsChar, Bool.or_eq_false_iff, decide_eq_false_iff_not]
  exact ⟨⟨⟨digit_ne hc (by decide), digit_ne hc (by decide)⟩, digit_ne hc (by decide)⟩,
    digit_ne hc (by decide)⟩

theorem trimChars_of_digits {cs : List Char} (h : ∀ c ∈ cs, c.isDigit = true) :
    trimChars cs = cs := by
  have hws : ∀ c ∈ cs, isWsChar c = false := fun c hc => digit_not_ws (h c hc)
  unfold trimChars
  rw [dropWhile_of_forall_neg hws,
    dropWhile_of_forall_neg fun c hc => hws c (List.mem_reverse.mp hc),
    List.reverse_reverse]

theorem parseDecimal_digits {cs : List Char} (hne : cs ≠ [])
    (h : ∀ c ∈ cs, c.isDigit = true) :
    parseDecimal cs = some ⟨(natOfDigits cs : ℤ), 1⟩ := by
  have hempty : cs.isEmpty = false := by
    cases cs with
    | nil => exact absurd rfl hne
    | cons a t => rfl
  have hmant : mantissa cs [] = ⟨(natOfDigits cs : ℤ), 1⟩ := by
    have h0 : natOfDigits [] = 0 := rfl
    simp [mantissa, h0]
  unfold parseDecimal
  rw [dropWhile_of_forall h]
  simp [takeWhile_of_forall h, hempty, withExpPart, hmant]

theorem radixDigits_of_digits {cs : List Char} (h : ∀ c ∈ cs, c.isDigit = true) :
    radixDigits cs = none := by
  match cs with
  | [] => rfl
  | [c] => rfl
  | c0 :: c1 :: r =>
    have h1 : c1.isDigit = true := h c1 (by simp)
    unfold radixDigits
    by_cases h0 : c0 = '0'
    · simp [h0, digit_ne h1 (by decide : ('x' : Char).isDigit = false),
        digit_ne h1 (by decide : ('X' : Char).isDigit = false),
        digit_ne h1 (by decide : ('o' : Char).isDigit = false),
        digit_ne h1 (by decide : ('O' : Char).isDigit = false),
        digit_ne h1 (by decide : ('b' : Char).isDigit = false),
        digit_ne h1 (by decide : ('B' : Char).isDigit = false)]
    · simp [h0]

theorem signedDec_of_digits {cs : List Char} (hne : cs ≠ [])
    (h : ∀ c ∈ cs, c.isDigit = true) : signedDec cs = decOrInf cs false := by
  match cs with
  | [] => exact absurd rfl hne
  | c :: r =>
    have hc : c.isDigit = true := h c (by simp)
    unfold signedDec
    simp [digit_ne hc (by decide : ('+' : Char).isDigit = false),
      digit_ne hc (by decide : ('-' : Char).isDigit = false)]

theorem decOrInf_of_digits {cs : List Char} (hne : cs ≠ [])
    (h : ∀ c ∈ cs, c.isDigit = true) :
    decOrInf cs false = .fin ⟨(natOfDigits cs : ℤ), 1⟩ := by
  have hinf : cs ≠ "Infinity".toList := by
    match cs with
    | [] => exact absurd rfl hne
    | c :: r =>
      intro heq
      have hc : c.isDigit = true := h c (by simp)
      have : c = 'I' := (List.cons.injEq _ _ _ _ ▸ heq).1
      exact digit_ne hc (by decide : ('I' : Char).isDigit = false) this
  unfold decOrInf
  rw [if_neg hinf, parseDecimal_digits hne h]
  simp

theorem jsNumber_natStr {n : ℕ} (hn : 1 ≤ n) : jsNumber (natStr n) = .fin ⟨(n : ℤ), 1⟩ := by
  have hd := natStr_chars_digit n
  have hne := natStr_toList_ne_nil hn
  have hval : natOfDigits (natStr n).toList = n := by
    rw [natStr_toList]
    exact natOfDigits_natStr n
  unfold jsNumber
  rw [trimChars_of_digits hd]
  obtain ⟨c, t, hct⟩ : ∃ c t, (natStr n).toList = c :: t := by
    cases h : (natStr n).toList with
    | nil => exact absurd h hne
    | cons c t => exact ⟨c, t, rfl⟩
  rw [hct]
  have hd' : ∀ x ∈ c :: t, x.isDigit = true := fun x hx => hd x (hct ▸ hx)
  show jsNumeric (c :: t) = _
  unfold jsNumeric
  rw [radixDigits_of_digits hd', signedDec_of_digits (by simp) hd',
    decOrInf_of_digits (by simp) hd', ← hct, hval]

theorem string_toList_append (a b : String) : (a ++ b).toList = a.toList ++ b.toList := by
  cases a
  cases b
  rfl

theorem string_mk_toList (s : String) : String.mk s.toList = s := by
  cases s
  rfl

theorem leadMatches_prefix_append : ∀ pre rest : List Char, leadMatches pre (pre ++ rest) = true := by
  intro pre
  induction pre with
  | nil => intro rest; rfl
  | cons a t ih => intro rest; simp [leadMatches, ih]

theorem dropWhile_append_all {p : Char → Bool} {xs ys : List Char}
    (h : ∀ x ∈ xs, p x = true) : (xs ++ ys).dropWhile p = ys.dropWhile p := by
  induction xs with
  | nil => rfl
  | cons a t ih =>
    simp [List.dropWhile_cons, h a (by simp), ih fun x hx => h x (by simp [hx])]

theorem takeWhile_append_all {p : Char → Bool} {xs ys : List Char}
    (h : ∀ x ∈ xs, p x = true) : (xs ++ ys).takeWhile p = xs ++ ys.takeWhile p := by
  induction xs with
  | nil => rfl
  | cons a t ih =>
    simp [List.takeWhile_cons, h a (by simp), ih fun x hx => h x (by simp [hx])]

theorem takeWhile_append_stop {p : Char → Bool} {xs ys : List Char} {y : Char}
    (h : ∀ x ∈ xs, p x = true) (hy : p y = false) :
    (xs ++ y :: ys).takeWhile p = xs := by
  rw [takeWhile_append_all h]
  simp [List.takeWhile_cons, hy]

theorem afterFirst_append {c : Char} {xs ys : List Char} (hxs : ∀ x ∈ xs, x ≠ c) :
    afterFirst c (xs ++ c :: ys) = ys := by
  unfold afterFirst
  rw [dropWhile_append_all (p := fun a => !(decide (a = c))) fun x hx => by
    simp [hxs x hx]]
  simp [List.dropWhile_cons]

theorem splitChars_of_no_sep {c : Char} {cs : List Char} (h : ∀ x ∈ cs, x ≠ c) :
    splitChars c cs = [cs] := by
  induction cs with
  | nil => rfl
  | cons a t ih =>
    unfold splitChars
    rw [ih fun x hx => h x (by simp [hx])]
    simp [h a (by simp)]

theorem getSearchParam_canonical (m : ℕ) :
    getSearchParam (nextLinkBase ++ natStr m) (xmlMetadataMarker ++ "skip") = some (natStr m) := by
  have hds : ∀ c ∈ (natStr m).toList, c.isDigit = true := natStr_chars_digit m
  have hbase : nextLinkBase.toList =
      "https://contoso.servicebus.windows.net/$Resources/Queues".toList ++
        '?' :: ("$skip".toList ++ ['=']) := by decide
  have hkey : (xmlMetadataMarker ++ "skip").toList = "$skip".toList := by decide
  have hA : ∀ x ∈ "https://contoso.servicebus.windows.net/$Resources/Queues".toList,
      x ≠ '?' := by decide
  have hBamp : ∀ y ∈ "$skip".toList, y ≠ '&' := by decide
  have hBeq : ∀ y ∈ "$skip".toList, y ≠ '=' := by decide
  have hBeqB : ∀ y ∈ "$skip".toList, (!(decide (y = '='))) = true := fun y hy => by
    simp [hBeq y hy]
  have hamp : ∀ x ∈ "$skip".toList ++ '=' :: (natStr m).toList, x ≠ '&' := by
    intro x hx
    rcases List.mem_append.mp hx with hx | hx
    · exact hBamp x hx
    · rcases List.mem_cons.mp hx with rfl | hx
      · decide
      · exact digit_ne (hds x hx) (by decide : ('&' : Char).isDigit = false)
  unfold getSearchParam
  rw [string_toList_append, hbase, hkey]
  simp only [List.append_assoc, List.cons_append, List.singleton_append, List.nil_append]
  rw [afterFirst_append hA, splitChars_of_no_sep hamp]
  simp only [List.filterMap]
  rw [takeWhile_append_stop hBeqB (by decide), afterFirst_append hBeq, string_mk_toList]
  simp

theorem getMarker_canonical (m : ℕ) :
    getMarkerFromNextLinkUrl (some (nextLinkBase ++ natStr m)) = .ok (some (natStr m)) := by
  have hne : (nextLinkBase ++ natStr m).toList ≠ [] := by
    rw [string_toList_append]
    intro h
    have h1 := (List.append_eq_nil.mp h).1
    revert h1
    decide
  have hlead : leadMatches "https://".toList (nextLinkBase ++ natStr m).toList = true := by
    rw [string_toList_append,
      show nextLinkBase.toList = "https://".toList ++
        "contoso.servicebus.windows.net/$Resources/Queues?$skip=".toList from by decide,
      List.append_assoc]
    exact leadMatches_prefix_append _ _
  have hcond : (leadMatches "https://".toList (nextLinkBase ++ natStr m).toList
      || leadMatches "http://".toList (nextLinkBase ++ natStr m).toList) = true := by
    rw [hlead]
    rfl
  simp only [getMarkerFromNextLinkUrl]
  rw [if_neg hne, if_pos hcond, getSearchParam_canonical m]

theorem requestSkip_natStr {s : ℕ} (h : 1 ≤ s) :
    requestSkip (some (natStr s)) = some (.fin ⟨(s : ℤ), 1⟩) := by
  have hjs := jsNumber_natStr h
  have htr : (JsNum.fin ⟨(s : ℤ), 1⟩).truthy = true := by
    simp [JsNum.truthy]
    omega
  simp [requestSkip, jsNumberOpt, hjs, htr]

theorem mkListRequest_canonMarker (s : ℕ) : mkListRequest (canonMarker s) none = canonReq s := by
  by_cases h0 : s = 0
  · subst h0
    rfl
  · simp [canonMarker, canonReq, h0, mkListRequest, requestTop,
      requestSkip_natStr (s := s) (by omega)]

theorem effSkip_canonReq (N s : ℕ) : effSkip N (canonReq s).skip = s := by
  by_cases h0 : s = 0
  · subst h0
    rfl
  · simp [canonReq, h0, effSkip]

theorem filterMap_some_eq {β : Type} (l : List β) : l.filterMap some = l := by
  induction l with
  | nil => rfl
  | cons a t ih => simp [List.filterMap_cons, ih]

theorem canonStep (N P s : ℕ) :
    buildListQueuesResponse (β := ℕ) some
        (canonicalServer N P (mkListRequest (canonMarker s) none)) =
      .ok ⟨((List.range N).drop s).take P,
        if s + P < N then some (natStr (s + P)) else none⟩ := by
  rw [mkListRequest_canonMarker]
  unfold canonicalServer
  rw [effSkip_canonReq]
  by_cases h : s + P < N
  · simp only [if_pos h]
    simp only [buildListQueuesResponse]
    rw [getMarker_canonical (s + P)]
    rw [filterMap_some_eq]
  · simp only [if_neg h]
    simp only [buildListQueuesResponse, getMarkerFromNextLinkUrl]
    rw [filterMap_some_eq]

theorem jsTruthyOptStr_natStr {m : ℕ} (h : 1 ≤ m) : jsTruthyOptStr (some (natStr m)) = true := by
  simp [jsTruthyOptStr]
  exact natStr_toList_ne_nil h

theorem canonMarker_pos {m : ℕ} (h : 1 ≤ m) : canonMarker m = some (natStr m) := by
  simp [canonMarker]
  omega

theorem pageRun_canonical (N P : ℕ) :
    ∀ fuel s, 0 < P → 0 < fuel → N ≤ s + fuel * P →
    listQueuesPageRun (canonicalServer N P) some none (canonMarker s) fuel =
      (.ok (canonPages N P s fuel), canonReqs N P s fuel) := by
  intro fuel
  induction fuel with
  | zero =>
    intro s hP h0 hle
    omega
  | succ f ih =>
    intro s hP h0 hle
    rw [Nat.succ_mul] at hle
    simp only [listQueuesPageRun]
    rw [canonStep]
    by_cases h : s + P < N
    · have hf : 0 < f := by
        rcases Nat.eq_zero_or_pos f with rfl | hf
        · simp at hle
          omega
        · exact hf
      have hbound : N ≤ (s + P) + f * P := by omega
      simp only [if_pos h]
      rw [jsTruthyOptStr_natStr (by omega), if_pos rfl]
      rw [← canonMarker_pos (m := s + P) (by omega)]
      rw [ih (s + P) hP hf hbound]
      simp only [canonPages, canonReqs, if_pos h, Except.map, mkListRequest_canonMarker]
      rw [canonMarker_pos (m := s + P) (by omega)]
    · simp only [if_neg h]
      rw [show jsTruthyOptStr none = false from rfl, if_neg (by simp)]
      simp only [canonPages, canonReqs, if_neg h, mkListRequest_canonMarker]

theorem canonPages_items (N P : ℕ) (hP : 0 < P) :
    ∀ fuel s, 0 < fuel → N ≤ s + fuel * P →
    ((canonPages N P s fuel).map EntitiesResponse.items).flatten = (List.range N).drop s := by
  intro fuel
  induction fuel with
  | zero =>
    intro s h0 hle
    omega
  | succ f ih =>
    intro s h0 hle
    rw [Nat.succ_mul] at hle
    by_cases h : s + P < N
    · have hf : 0 < f := by
        rcases Nat.eq_zero_or_pos f with rfl | hf
        · simp at hle
          omega
        · exact hf
      simp only [canonPages, if_pos h, List.map_cons, List.flatten_cons]
      rw [ih (s + P) hf (by omega)]
      have hdd : (List.range N).drop (s + P) = ((List.range N).drop s).drop P := by
        rw [List.drop_drop, Nat.add_comm]
      rw [hdd, List.take_append_drop]
    · simp only [canonPages, if_neg h, List.map_cons, List.map_nil, List.flatten_cons,
        List.flatten_nil, List.append_nil]
      have hlen : ((List.range N).drop s).length ≤ P := by
        simp only [List.length_drop, List.length_range]
        omega
      exact List.take_of_length_le hlen

theorem canonPages_length (N P : ℕ) (hP : 0 < P) :
    ∀ fuel s, 0 < fuel → N ≤ s + fuel * P →
    (canonPages N P s fuel).length = fetchCount (N - s) P := by
  intro fuel
  induction fuel with
  | zero =>
    intro s h0 hle
    omega
  | succ f ih =>
    intro s h0 hle
    rw [Nat.succ_mul] at hle
    by_cases h : s + P < N
    · have hf : 0 < f := by
        rcases Nat.eq_zero_or_pos f with rfl | hf
        · simp at hle
          omega
        · exact hf
      simp only [canonPages, if_pos h, List.length_cons]
      rw [ih (s + P) hf (by omega)]
      have h1 : N - s ≠ 0 := by omega
      have h2 : N - (s + P) ≠ 0 := by omega
      simp only [fetchCount, h1, h2, if_false]
      rw [show N - (s + P) + P - 1 = N - s - 1 from by omega,
        show N - s + P - 1 = (N - s - 1) + P from by omega,
        Nat.add_div_right _ hP]
    · simp only [canonPages, if_neg h, List.length_singleton]
      by_cases hz : N - s = 0
      · simp [fetchCount, hz]
      · simp only [fetchCount, hz, if_false]
        symm
        exact Nat.div_eq_of_lt_le (by omega) (by omega)

theorem canonReqs_length_eq (N P : ℕ) :
    ∀ fuel s, (canonReqs N P s fuel).length = (canonPages N P s fuel).length := by
  intro fuel
  induction fuel with
  | zero =>
    intro s
    rfl
  | succ f ih =>
    intro s
    by_cases h : s + P < N <;> simp [canonPages, canonReqs, h, ih]

theorem canonPages_ne_nil (N P s f : ℕ) (hf : 0 < f) : canonPages N P s f ≠ [] := by
  match f, hf with
  | f' + 1, _ => by_cases h : s + P < N <;> simp [canonPages, h]

theorem canonPages_getLast_token (N P : ℕ) :
    ∀ fuel s, 0 < fuel → N ≤ s + fuel * P →
    ((canonPages N P s fuel).getLast?).bind EntitiesResponse.continuationToken = none := by
  intro fuel
  induction fuel with
  | zero =>
    intro s h0 hle
    omega
  | succ f ih =>
    intro s h0 hle
    rw [Nat.succ_mul] at hle
    by_cases h : s + P < N
    · have hf : 0 < f := by
        rcases Nat.eq_zero_or_pos f with rfl | hf
        · simp at hle
          omega
        · exact hf
      simp only [canonPages, if_pos h]
      obtain ⟨b, l, hbl⟩ := List.exists_cons_of_ne_nil (canonPages_ne_nil N P (s + P) f hf)
      rw [hbl, List.getLast?_cons_cons, ← hbl]
      exact ih (s + P) hf (by omega)
    · simp [canonPages, if_neg h, h]

theorem canonPages_head_token (N P s f : ℕ) (hf : 0 < f) :
    ∃ items, (canonPages N P s f).head? =
      some ⟨items, if s + P < N then some (natStr (s + P)) else none⟩ := by
  match f, hf with
  | f' + 1, _ =>
    by_cases h : s + P < N <;>
      exact ⟨((List.range N).drop s).take P, by simp [canonPages, h]⟩

theorem canonPages_chain (N P : ℕ) (hP : 0 < P) :
    ∀ fuel s, List.Chain' tokensStrictlyIncrease (canonPages N P s fuel) := by
  intro fuel
  induction fuel with
  | zero =>
    intro s
    exact List.chain'_nil
  | succ f ih =>
    intro s
    by_cases h : s + P < N
    · simp only [canonPages, if_pos h]
      rw [List.chain'_cons']
      refine ⟨?_, ih (s + P)⟩
      intro b hb
      rcases Nat.eq_zero_or_pos f with rfl | hf
      · simp [canonPages] at hb
      · obtain ⟨bitems, hhead⟩ := canonPages_head_token N P (s + P) f hf
        rw [hhead, Option.mem_some_iff] at hb
        subst hb
        intro a c ha hc
        simp only [if_pos h, Option.some.injEq] at ha
        by_cases h2 : s + P + P < N
        · simp only [if_pos h2, Option.some.injEq] at hc
          refine ⟨s + P, s + P + P, ?_, ?_, by omega⟩
          · rw [← ha]
            exact jsNumber_natStr (by omega)
          · rw [← hc]
            exact jsNumber_natStr (by omega)
        · simp only [if_neg h2] at hc
          cases hc
    · simp only [canonPages, if_neg h]
      exact List.chain'_singleton _

theorem fetchCount_eq_max (N P : ℕ) (hP : 0 < P) :
    fetchCount N P = max 1 ((N + P - 1) / P) := by
  by_cases h : N = 0
  · subst h
    have hz : (P - 1) / P = 0 := Nat.div_eq_of_lt (by omega)
    simp [fetchCount, hz]
  · have h1 : 1 ≤ (N + P - 1) / P := by
      rw [Nat.one_le_div_iff hP]
      omega
    simp [fetchCount, h]
    omega

theorem listAllRun_canonical (N P fuel : ℕ) (hP : 0 < P) (hf : 0 < fuel)
    (hN : N ≤ fuel * P) :
    listQueuesAllRun (canonicalServer N P) some fuel =
      (.ok (List.range N), canonReqs N P 0 fuel) := by
  unfold listQueuesAllRun
  rw [show (none : Option String) = canonMarker 0 from rfl,
    pageRun_canonical N P fuel 0 hP hf (by omega)]
  simp only [Except.map]
  rw [canonPages_items N P hP fuel 0 hf (by omega), List.drop_zero]

/-- Claim C3 counterexample: `1.5` is not a non-negative integer string,
yet byPage raises no invalid-continuation-token error for it — the
validation accepts it (`Number("1.5") = 1.5 >= 0`) and the call proceeds
to fetch pages (shown against the canonical 5-item, page-size-2 server),
so the claim's universal over all non-non-negative-integer-string tokens
is false at this concrete token. -/
theorem claim_C3_counterexample :
    isNonNegIntString "1.5" = false ∧
    throwIfInvalidContinuationToken (some "1.5") = .ok () ∧
    (getQueuesByPage (canonicalServer 5 2) some (some "1.5") none 3).1 =
      .ok [⟨[1, 2], some "3"⟩, ⟨[3, 4], none⟩] := by
  decide

/-- Claim C3 (amended): byPage raises the invalid-continuation-token
error synchronously — the result is the error naming the token and the
request trace is empty, for every server — exactly for those supplied
tokens whose JS numeric conversion is NaN or negative (for example `-1`
and `abc`); every other token is accepted, the call then being exactly
the page loop from that token, and the accepted set contains every
non-negative integer string; for an absent (undefined) token no error is
raised. -/
theorem claim_C3_invalid_token_amended :
    (∀ (α β : Type) (server : ListRequest → JsParsedBody α) (decode : α → Option β)
        (mps : Option ℕ) (fuel : ℕ) (t : String),
      (jsNumber t).nonneg = false →
      getQueuesByPage server decode (some t) mps fuel =
        (.error (.invalidToken ("Invalid continuationToken " ++ t ++ " provided")), [])) ∧
    (∀ (α β : Type) (server : ListRequest → JsParsedBody α) (decode : α → Option β)
        (mps : Option ℕ) (fuel : ℕ) (t : String),
      (jsNumber t).nonneg = true →
      getQueuesByPage server decode (some t) mps fuel =
        ((listQueuesPageRun server decode mps (some t) fuel).1.mapError ByPageError.page,
          (listQueuesPageRun server decode mps (some t) fuel).2)) ∧
    (∀ (α β : Type) (server : ListRequest → JsParsedBody α) (decode : α → Option β)
        (mps : Option ℕ) (fuel : ℕ),
      getQueuesByPage server decode none mps fuel =
        ((listQueuesPageRun server decode mps none fuel).1.mapError ByPageError.page,
          (listQueuesPageRun server decode mps none fuel).2)) ∧
    (jsNumber "-1").nonneg = false ∧
    (jsNumber "abc").nonneg = false ∧
    (∀ n : ℕ, (jsNumber (natStr n)).nonneg = true) := by
  refine ⟨fun α β server decode mps fuel t h => ?_,
    fun α β server decode mps fuel t h => ?_,
    fun α β server decode mps fuel => rfl, by decide, by decide, fun n => ?_⟩
  · have hv : throwIfInvalidContinuationToken (some t) =
        .error ("Invalid continuationToken " ++ t ++ " provided") := by
      simp [throwIfInvalidContinuationToken, h]
    unfold getQueuesByPage
    rw [hv]
  · have hv : throwIfInvalidContinuationToken (some t) = .ok () := by
      simp [throwIfInvalidContinuationToken, h]
    unfold getQueuesByPage
    rw [hv]
  · rcases Nat.eq_zero_or_pos n with rfl | hn
    · decide
    · rw [jsNumber_natStr hn]
      simp [JsNum.nonneg]

/-- Witness for the amended C3: the rejected token `-1` produces the
synchronous error with an empty trace, and the accepted token `1.5`
proceeds to the page loop, on a concrete server. -/
theorem claim_C3_invalid_token_amended_witness :
    (jsNumber "-1").nonneg = false ∧
    getQueuesByPage (canonicalServer 5 2) some (some "-1") none 3 =
      (.error (.invalidToken "Invalid continuationToken -1 provided"), []) ∧
    (jsNumber "1.5").nonneg = true ∧
    getQueuesByPage (canonicalServer 5 2) some (some "1.5") none 3 =
      ((listQueuesPageRun (canonicalServer 5 2) some none (some "1.5") 3).1.mapError
          ByPageError.page,
        (listQueuesPageRun (canonicalServer 5 2) some none (some "1.5") 3).2) :=
  ⟨by decide,
    claim_C3_invalid_token_amended.1 ℕ ℕ (canonicalServer 5 2) some none 3 "-1" (by decide),
    by decide,
    claim_C3_invalid_token_amended.2.1 ℕ ℕ (canonicalServer 5 2) some none 3 "1.5" (by decide)⟩

/-- Claim C5: building a page response has exactly two outcomes — for an
array body (with an extractable marker) it succeeds with precisely the
records on which the decoder succeeds, in order (undecodable records are
skipped), and for a non-array body it fails with the parse RestError;
every failure path of the builder surfaces as that same parse error. -/
theorem claim_C5_page_parse_outcomes :
    (∀ (α β : Type) (decode : α → Option β) (records : List α)
        (nextLink mk : Option String),
        getMarkerFromNextLinkUrl nextLink = .ok mk →
        buildListQueuesResponse decode (.arr records nextLink) =
          .ok ⟨records.filterMap decode, mk⟩) ∧
    (∀ (α β : Type) (decode : α → Option β) (nextLink : Option String),
        buildListQueuesResponse decode (.nonArray nextLink) = .error parseRestError) ∧
    (∀ (α β : Type) (decode : α → Option β) (body : JsParsedBody α),
        (∃ resp, buildListQueuesResponse decode body = .ok resp) ∨
        buildListQueuesResponse decode body = .error parseRestError) := by
  refine ⟨fun α β decode records nextLink mk h => by simp [buildListQueuesResponse, h],
    fun α β decode nextLink => rfl, fun α β decode body => ?_⟩
  cases body with
  | nonArray nextLink => exact Or.inr rfl
  | arr records nextLink =>
    cases hm : getMarkerFromNextLinkUrl nextLink with
    | error e => exact Or.inr (by simp [buildListQueuesResponse, hm])
    | ok mk =>
      exact Or.inl ⟨⟨records.filterMap decode, mk⟩, by simp [buildListQueuesResponse, hm]⟩

/-- Witness for C5: a page with one well-formed and one undecodable record
yields exactly one item. -/
theorem claim_C5_page_parse_outcomes_witness :
    getMarkerFromNextLinkUrl none = .ok none ∧
    buildListQueuesResponse (fun n : ℕ => if n = 1 then some n else none)
        (.arr [1, 2] none) = .ok ⟨[1], none⟩ ∧
    ([1] : List ℕ).length = 1 :=
  ⟨by decide,
    (claim_C5_page_parse_outcomes.1 ℕ ℕ (fun n : ℕ => if n = 1 then some n else none)
        [1, 2] none none (by decide)).trans (by decide),
    rfl⟩

/-- Claim C4 counterexample: for the empty collection (N = 0, page size
P = 1) the do/while loop still performs one page fetch (an empty page,
cleanly, without error), while ceil(0/1) = 0, so the fetch count is not
ceil(N/P) at N = 0. -/
theorem claim_C4_counterexample :
    (listQueuesAllRun (canonicalServer 0 1) some 1).1 = .ok [] ∧
    (listQueuesAllRun (canonicalServer 0 1) some 1).2.length = 1 ∧
    (0 + 1 - 1) / 1 = 0 := by
  decide

/-- Claim C4 (amended): for every remote collection of `N` items served
with page size `P > 0` (and enough fuel for the loop), `listAll` yields
exactly the `N` items, through `max 1 (ceil(N/P))` page fetches — equal to
`ceil(N/P)` whenever `N > 0`, and to one fetch of an empty page for
`N = 0` — and the iteration stops exactly on a page whose continuation
token is absent. -/
theorem claim_C4_pagination_termination (N P fuel : ℕ) (hP : 0 < P) (hfuel : 0 < fuel)
    (hN : N ≤ fuel * P) :
    (listQueuesAllRun (canonicalServer N P) some fuel).1 = .ok (List.range N) ∧
    (List.range N).length = N ∧
    (listQueuesAllRun (canonicalServer N P) some fuel).2.length = fetchCount N P ∧
    fetchCount N P = max 1 ((N + P - 1) / P) ∧
    (∀ pages, (listQueuesPageRun (canonicalServer N P) some none none fuel).1 = .ok pages →
      pages.getLast?.bind EntitiesResponse.continuationToken = none) := by
  have hall := listAllRun_canonical N P fuel hP hfuel hN
  have hrun := pageRun_canonical N P fuel 0 hP hfuel (by omega)
  rw [show canonMarker 0 = (none : Option String) from rfl] at hrun
  refine ⟨by rw [hall], by simp, ?_, fetchCount_eq_max N P hP, fun pages hpg => ?_⟩
  · rw [hall]
    show (canonReqs N P 0 fuel).length = _
    rw [canonReqs_length_eq N P fuel 0, canonPages_length N P hP fuel 0 hfuel (by omega)]
    simp
  · rw [hrun] at hpg
    simp only [Prod.fst, Except.ok.injEq] at hpg
    subst hpg
    exact canonPages_getLast_token N P fuel 0 hfuel (by omega)

/-- Witness for the amended C4 at a concrete collection: 5 items at page
size 2 are yielded in full through 3 = ceil(5/2) fetches. -/
theorem claim_C4_pagination_termination_witness :
    (listQueuesAllRun (canonicalServer 5 2) some 3).1 = .ok (List.range 5) ∧
    (List.range 5).length = 5 ∧
    (listQueuesAllRun (canonicalServer 5 2) some 3).2.length = fetchCount 5 2 ∧
    fetchCount 5 2 = max 1 ((5 + 2 - 1) / 2) ∧
    (∀ pages, (listQueuesPageRun (canonicalServer 5 2) some none none 3).1 = .ok pages →
      pages.getLast?.bind EntitiesResponse.continuationToken = none) :=
  claim_C4_pagination_termination 5 2 3 (by decide) (by decide) (by decide)

/-- Claim C7: two independent invocations of `listAll` given identical
server responses produce identical outcomes (the embedded iteration has no
state besides its own marker, which starts at `undefined` for each call);
moreover on the canonical unchanged collection every invocation yields
exactly the full item sequence. -/
theorem claim_C7_restartability :
    (∀ (α β : Type) (srv1 srv2 : ListRequest → JsParsedBody α) (decode : α → Option β)
        (fuel : ℕ),
      (∀ r, srv1 r = srv2 r) →
      listQueuesAllRun srv1 decode fuel = listQueuesAllRun srv2 decode fuel) ∧
    (∀ N P fuel : ℕ, 0 < P → 0 < fuel → N ≤ fuel * P →
      (listQueuesAllRun (canonicalServer N P) some fuel).1 = .ok (List.range N)) := by
  constructor
  · intro α β srv1 srv2 decode fuel h
    rw [funext h]
  · intro N P fuel hP hf hN
    rw [listAllRun_canonical N P fuel hP hf hN]

/-- Witness for C7: two syntactically different but pointwise equal
servers over the same 3-item collection produce identical scans. -/
theorem claim_C7_restartability_witness :
    listQueuesAllRun (canonicalServer 3 2) some 2 =
      listQueuesAllRun (fun r => canonicalServer 3 (1 + 1) r) some 2 ∧
    (listQueuesAllRun (canonicalServer 3 2) some 2).1 = .ok (List.range 3) :=
  ⟨claim_C7_restartability.1 ℕ ℕ (canonicalServer 3 2)
      (fun r => canonicalServer 3 (1 + 1) r) some 2 (fun r => rfl),
    claim_C7_restartability.2 3 2 2 (by decide) (by decide) (by decide)⟩

/-- Claim C8: within a single scan of the canonical collection, the pages
yielded to the caller carry continuation tokens that, between any two
consecutive pages both carrying one, convert to strictly increasing
natural numbers (hence non-negative integers). -/
theorem claim_C8_marker_monotonic (N P fuel : ℕ) (hP : 0 < P) (hf : 0 < fuel)
    (hN : N ≤ fuel * P) :
    (listQueuesPageRun (canonicalServer N P) some none none fuel).1 =
      .ok (canonPages N P 0 fuel) ∧
    ∀ pages, (listQueuesPageRun (canonicalServer N P) some none none fuel).1 = .ok pages →
      List.Chain' tokensStrictlyIncrease pages := by
  have hrun := pageRun_canonical N P fuel 0 hP hf (by omega)
  rw [show canonMarker 0 = (none : Option String) from rfl] at hrun
  refine ⟨by rw [hrun], fun pages hpg => ?_⟩
  rw [hrun] at hpg
  simp only [Prod.fst, Except.ok.injEq] at hpg
  subst hpg
  exact canonPages_chain N P hP fuel 0

/-- Witness for C8 at the concrete 5-item, page-size-2 scan (tokens `2`
then `4`). -/
theorem claim_C8_marker_monotonic_witness :
    (listQueuesPageRun (canonicalServer 5 2) some none none 3).1 =
      .ok (canonPages 5 2 0 3) ∧
    List.Chain' tokensStrictlyIncrease (canonPages 5 2 0 3) :=
  ⟨(claim_C8_marker_monotonic 5 2 3 (by decide) (by decide) (by decide)).1,
    (claim_C8_marker_monotonic 5 2 3 (by decide) (by decide) (by decide)).2
      (canonPages 5 2 0 3)
      ((claim_C8_marker_monotonic 5 2 3 (by decide) (by decide) (by decide)).1)⟩

end SBus


